import Mathlib

/-!
Verification of the slash-command dispatch and deep-link resolution module
(`src/app/actions/remote/command.ts`) of the MattermostMobileClone repository.

The module is shallowly embedded: strings handled character-wise are
`List Char`; every external collaborator (database registry, network client,
app subsystem, deep-link matcher, navigation layer) is a field of an `Env`
record, and side effects performed through collaborators are recorded in an
ordered `Effect` trace returned next to the function result.
-/

namespace Command

/-- The ECMAScript white-space and line-terminator set used by
`String.prototype.trim` / `trimEnd` (TAB, LF, VT, FF, CR, SP, NBSP,
Ogham space mark, the Zs range U+2000..U+200A, LS, PS, NNBSP, MMSP,
ideographic space, and ZWNBSP). -/
def jsIsWhitespace (c : Char) : Bool :=
  c.toNat = 9 || c.toNat = 10 || c.toNat = 11 || c.toNat = 12 || c.toNat = 13 ||
  c.toNat = 32 || c.toNat = 0xA0 || c.toNat = 0x1680 ||
  (0x2000 ≤ c.toNat && c.toNat ≤ 0x200A) ||
  c.toNat = 0x2028 || c.toNat = 0x2029 || c.toNat = 0x202F ||
  c.toNat = 0x205F || c.toNat = 0x3000 || c.toNat = 0xFEFF

/-- Model of `String.prototype.trimEnd`: remove trailing white space. -/
def jsTrimEnd (l : List Char) : List Char :=
  (l.reverse.dropWhile jsIsWhitespace).reverse

/-- Model of `String.prototype.trim`: remove leading and trailing white space. -/
def jsTrim (l : List Char) : List Char :=
  jsTrimEnd (l.dropWhile jsIsWhitespace)

/-- Character-level model of `String.prototype.toLowerCase` restricted to the
ASCII range (the only case the `/code` comparison in the source can be
sensitive to): `'A'..'Z'` (codes 65..90) map 32 code points up. -/
def jsToLowerChar (c : Char) : Char :=
  if 65 ≤ c.toNat ∧ c.toNat ≤ 90 then Char.ofNat (c.toNat + 32) else c

/-- Model of `msg.indexOf(' ')` followed by the `if (cmdLength < 0) cmdLength = msg.length`
patch-up of `executeCommand` (src lines 62-65). -/
def jsCmdLength (msg : List Char) : Nat :=
  match msg.findIdx? (· = ' ') with
  | some i => i
  | none => msg.length

/-- Source `filterEmDashForCommand` (src lines 134-136):
`command.replace(/—/g, '--')`. -/
def filterEmDashForCommand : List Char → List Char
  | [] => []
  | c :: rest =>
    (if c = '—' then ['-', '-'] else [c]) ++ filterEmDashForCommand rest

/-- The command token of the normalization step (src line 67):
`msg.substring(0, cmdLength).toLowerCase()` applied to the em-dash-filtered
message. -/
def cmdOf (message : List Char) : List Char :=
  let msg := filterEmDashForCommand message
  (msg.take (jsCmdLength msg)).map jsToLowerChar

/-- The argument segment of the normalization step (src lines 69/71):
`msg.substring(cmdLength, msg.length)` applied to the em-dash-filtered
message. -/
def restOf (message : List Char) : List Char :=
  let msg := filterEmDashForCommand message
  msg.drop (jsCmdLength msg)

/-- The message-normalization part of `executeCommand` (src lines 60-72):
filter em-dashes, split at the first space, lower-case the command token,
and recompose, end-trimming the remainder for `/code` and fully trimming it
for every other command. -/
def normalizeCommand (message : List Char) : List Char :=
  if cmdOf message = "/code".data then
    cmdOf message ++ [' '] ++ jsTrimEnd (restOf message)
  else
    cmdOf message ++ [' '] ++ jsTrim (restOf message)

/-- A database handle as stored in `DatabaseManager.serverDatabases[url].operator.database`;
opaque to this module, identified by a name. -/
abbrev Database := String

/-- A REST client as returned by `NetworkManager.getClient`; opaque here. -/
abbrev Client := String

/-- An app form payload (`callResp.form`); opaque here. JS objects are never
falsy, so its truthiness test is presence alone. -/
abbrev AppForm := String

/-- The `operator` half of a `serverDatabases` registry entry; the code only
uses its (non-optional) `database` field. -/
structure ServerOperator where
  database : Database
  deriving DecidableEq

/-- The channel row returned by `getChannelById`; only `teamId` is read. -/
structure Channel where
  teamId : String
  deriving DecidableEq

/-- The shape of errors thrown by the network layer (`ClientErrorProps`). -/
structure ClientErrorProps where
  message : String
  deriving DecidableEq

/-- Source `CommandResponse`: the code only reads `trigger_id`; the app path returns
the empty response `{}`, modelled as `trigger_id = none`. -/
structure CommandResponse where
  trigger_id : Option String
  deriving DecidableEq

/-- Source `CommandArgs` (src lines 45-50). -/
structure CommandArgs where
  channel_id : String
  team_id : String
  root_id : Option String
  parent_id : Option String
  deriving DecidableEq

/-- The construction context of an `AppCommandParser`
(`new AppCommandParser(serverUrl, intl, channelId, teamId, rootId)`). -/
structure ParserCtx where
  serverUrl : String
  channelId : String
  teamId : String
  rootId : Option String
  deriving DecidableEq

/-- An app call request (`creq`); the code forwards it and reads `context`. -/
structure AppCallRequest where
  context : String
  deriving DecidableEq

/-- Source `AppCallResponse`: tagged by the string `type`, with the optional fields
this module reads. `text` and `navigate_to_url` are strings (falsy when
empty), `form` is an object (truthy whenever present). -/
structure AppCallResponse where
  type : String
  text : Option String
  form : Option AppForm
  navigate_to_url : Option String
  deriving DecidableEq

/-- Modelled from the spec: the tag constants of `AppCallResponseTypes`
(`@constants/apps`, not part of this excerpt): the discriminant
`type ∈ {OK, FORM, NAVIGATE, <other>}` of the app-response tagged union. -/
def AppCallResponseTypes.OK : String := "ok"

/-- Modelled from the spec: see `AppCallResponseTypes.OK`. -/
def AppCallResponseTypes.FORM : String := "form"

/-- Modelled from the spec: see `AppCallResponseTypes.OK`. -/
def AppCallResponseTypes.NAVIGATE : String := "navigate"

/-- The client configuration returned by `getConfig`; only `SiteURL` is read. -/
structure Config where
  SiteURL : String
  deriving DecidableEq

/-- A user row returned by `queryUsersByUsername`. -/
structure User where
  id : String
  username : String
  deriving DecidableEq

/-- The slice of `IntlShape` this module reads directly (`intl.locale`);
message formatting is modelled by the explicit functions below. -/
structure Intl where
  locale : String
  deriving DecidableEq

/-- Modelled from the spec: the localization layer "formats user-facing
strings"; `intl.formatMessage({id, defaultMessage}, values)` is modelled as
the default (en) message with the values substituted. This is the
`apps.error.unknown` message. -/
def unknownErrorMessage : String := "Unknown error."

/-- Modelled from the spec: see `unknownErrorMessage`. This is the
`apps.error.responses.unknown_type` message with the `type` value
substituted. -/
def unknownTypeError (ty : String) : String :=
  "App response type not supported. Response type: " ++ ty ++ "."

/-- The deep-link match produced by `matchDeepLink` (`@utils/url`): a tagged
union over the link kinds, each carrying the fields this module reads.
Optional string payload fields are `Option String` (absent or present, the
latter possibly empty and hence falsy). -/
inductive DeepLinkMatch where
  | channel (serverUrl channelName teamName : String)
  | permalink (serverUrl teamName postId : String)
  | directMessage (serverUrl : String) (userName : Option String)
  | groupMessage (serverUrl : String) (channelId : Option String)
  | plugin (serverUrl : String) (id : String)
  deriving DecidableEq

/-- Accessor for `match.data.serverUrl`, present on every link kind. -/
def DeepLinkMatch.serverUrl : DeepLinkMatch → String
  | .channel s _ _ => s
  | .permalink s _ _ => s
  | .directMessage s _ => s
  | .groupMessage s _ => s
  | .plugin s _ => s

/-- One observable call into an external collaborator, in program order. -/
inductive Effect where
  | clientExecuteCommand (msg : List Char) (args : CommandArgs)
  | setTriggerId (triggerId : String)
  | appSubmit (creq : AppCallRequest)
  | postEphemeral (text : String)
  | showAppForm (form : AppForm) (context : String)
  | gotoLocation (url : String)
  | switchToChannelByName (server channelName teamName : String)
  | showPermalink (server teamName postId : String)
  | queryUsers (database : Database) (userName : String)
  | errorUnkownUser
  | errorBadChannel
  | makeDirectChannel (server userId displayName : String) (shownSince : Bool)
  | switchToChannelById (server channelId : String)
  | showModal (screen title link : String)
  | tryOpenURL (url : String)
  deriving DecidableEq

/-- The error half of `executeCommand`'s result union
(`error?: string | {message: string}`). -/
inductive CmdError where
  | str (s : String)
  | clientError (e : ClientErrorProps)
  | message (m : String)
  deriving DecidableEq

/-- The result union of `executeCommand` / `executeAppCommand`:
`{data?: CommandResponse; error?: ...}`. -/
inductive CmdResult where
  | data (resp : CommandResponse)
  | error (e : CmdError)
  deriving DecidableEq

/-- The result union of `handleGotoLocation`:
`{error: string}` or `{data: boolean}`. -/
inductive GotoResult where
  | error (s : String)
  | data (b : Bool)
  deriving DecidableEq

/-- JS truthiness of an optional string: `undefined` and `''` are falsy. -/
def jsTruthyStr : Option String → Bool
  | none => false
  | some s => s != ""

/-- JS truthiness of `database`: `operator.database` is a non-optional object
reference, and an object reference is never falsy in JS, so the
`if (!database)` test inside the DirectMessage branch (src line 172) is
always false. -/
def jsObjectFalsy (_ : Database) : Bool := false

/-- The external collaborators consumed by the module (spec section 6), as an
injected capability record: the process-wide registries
(`DatabaseManager`, `NetworkManager`, `IntegrationsManager`), the storage
queries, the app subsystem, the deep-link matcher and the user display
helpers. Navigation/presentation calls have no observed return value and are
recorded as effects instead. -/
structure Env where
  serverDatabases : String → Option ServerOperator
  searchUrl : String → Option String
  getClient : String → Except ClientErrorProps Client
  getChannelById : Database → String → Option Channel
  getCurrentTeamId : Database → String
  isAppsEnabled : String → Bool
  isAppCommand : ParserCtx → List Char → Bool
  composeCommandSubmitCall : ParserCtx → List Char → Except String AppCallRequest
  doAppSubmit : String → AppCallRequest → Intl → Except AppCallResponse AppCallResponse
  clientExecuteCommand : Client → List Char → CommandArgs → Except ClientErrorProps CommandResponse
  hasIntegrationsManager : String → Bool
  getConfig : Database → Option Config
  matchDeepLink : String → String → Option String → Option DeepLinkMatch
  queryUsersByUsername : Database → String → Option User
  getTeammateNameDisplay : Database → String
  displayUsername : User → String → String → String

/-- Model of `channel?.teamId || (await getCurrentTeamId(operator.database))`
(src line 43): note the JS `||` also falls back to the current team id when
the channel exists but its `teamId` is the empty string. -/
def commandTeamId (env : Env) (operator : ServerOperator) (channelId : String) : String :=
  match env.getChannelById operator.database channelId with
  | some channel =>
    if channel.teamId = "" then env.getCurrentTeamId operator.database else channel.teamId
  | none => env.getCurrentTeamId operator.database

/-- Source `executeAppCommand` (src lines 88-132). `composeCommandSubmitCall`'s
`{creq, errorMessage}` pair is modelled as an `Except`; the un-awaited
fire-and-forget calls (`postEphemeralCallResponseForCommandArgs`,
`showAppForm`, `handleGotoLocation`) are recorded as effects. -/
def executeAppCommand (env : Env) (intl : Intl) (serverUrl : String) (pctx : ParserCtx)
    (msg : List Char) (_args : CommandArgs) : CmdResult × List Effect :=
  match env.composeCommandSubmitCall pctx msg with
  | .error errorMessage => (.error (.message errorMessage), [])
  | .ok creq =>
    match env.doAppSubmit serverUrl creq intl with
    | .error errorResponse =>
      let txt :=
        match errorResponse.text with
        | some t => if t = "" then unknownErrorMessage else t
        | none => unknownErrorMessage
      (.error (.message txt), [.appSubmit creq])
    | .ok callResp =>
      if callResp.type = AppCallResponseTypes.OK then
        match callResp.text with
        | some t =>
          if t = "" then (.data ⟨none⟩, [.appSubmit creq])
          else (.data ⟨none⟩, [.appSubmit creq, .postEphemeral t])
        | none => (.data ⟨none⟩, [.appSubmit creq])
      else if callResp.type = AppCallResponseTypes.FORM then
        match callResp.form with
        | some f => (.data ⟨none⟩, [.appSubmit creq, .showAppForm f creq.context])
        | none => (.data ⟨none⟩, [.appSubmit creq])
      else if callResp.type = AppCallResponseTypes.NAVIGATE then
        match callResp.navigate_to_url with
        | some u =>
          if u = "" then (.data ⟨none⟩, [.appSubmit creq])
          else (.data ⟨none⟩, [.appSubmit creq, .gotoLocation u])
        | none => (.data ⟨none⟩, [.appSubmit creq])
      else
        (.error (.message (unknownTypeError callResp.type)), [.appSubmit creq])

/-- Source `executeCommand` (src lines 29-86). -/
def executeCommand (env : Env) (intl : Intl) (serverUrl : String) (message : List Char)
    (channelId : String) (rootId : Option String) : CmdResult × List Effect :=
  match env.serverDatabases serverUrl with
  | none => (.error (.str (serverUrl ++ " database not found")), [])
  | some operator =>
    match env.getClient serverUrl with
    | .error e => (.error (.clientError e), [])
    | .ok client =>
      let teamId := commandTeamId env operator channelId
      let args : CommandArgs := ⟨channelId, teamId, rootId, rootId⟩
      let pctx : ParserCtx := ⟨serverUrl, channelId, teamId, rootId⟩
      if env.isAppsEnabled serverUrl && env.isAppCommand pctx message then
        executeAppCommand env intl serverUrl pctx message args
      else
        let msg := normalizeCommand message
        match env.clientExecuteCommand client msg args with
        | .error e => (.error (.clientError e), [.clientExecuteCommand msg args])
        | .ok data =>
          match data.trigger_id with
          | some t =>
            if t ≠ "" then
              if env.hasIntegrationsManager serverUrl then
                (.data data, [.clientExecuteCommand msg args, .setTriggerId t])
              else (.data data, [.clientExecuteCommand msg args])
            else (.data data, [.clientExecuteCommand msg args])
          | none => (.data data, [.clientExecuteCommand msg args])

/-- The `else` fallback of `handleGotoLocation` (src lines 201-215):
`tryOpenURL(location, onError)` followed by the shared `return {data: true}`. -/
def gotoFallback (location : String) : GotoResult × List Effect :=
  (.data true, [.tryOpenURL location])

/-- Model of `if (match?.data?.serverUrl) linkServerUrl = DatabaseManager.searchUrl(...)`
(src lines 147-150). -/
def resolveLinkServerUrl (env : Env) : Option DeepLinkMatch → Option String
  | some m => if m.serverUrl ≠ "" then env.searchUrl m.serverUrl else none
  | none => none

/-- The `switch (match.type)` body of `handleGotoLocation`
(src lines 153-200), with the shared `return {data: true}` after each
`break`. -/
def handleMatchedLink (env : Env) (intl : Intl) (serverUrl : String) (database : Database)
    (location : String) (ls : String) : DeepLinkMatch → GotoResult × List Effect
  | .channel _ channelName teamName =>
    (.data true, [.switchToChannelByName ls channelName teamName])
  | .permalink _ teamName postId =>
    (.data true, [.showPermalink ls teamName postId])
  | .directMessage ds userName =>
    match userName with
    | none => (.data false, [.errorUnkownUser])
    | some u =>
      if u = "" then (.data false, [.errorUnkownUser])
      else if ds ≠ serverUrl ∧ jsObjectFalsy database then
        (.error (serverUrl ++ " database not found"), [])
      else
        match env.queryUsersByUsername database u with
        | none => (.data false, [.queryUsers database u, .errorUnkownUser])
        | some user =>
          (.data true,
            [.queryUsers database u,
             .makeDirectChannel ls user.id
               (env.displayUsername user intl.locale (env.getTeammateNameDisplay database))
               true])
  | .groupMessage _ channelId =>
    match channelId with
    | none => (.data false, [.errorBadChannel])
    | some c =>
      if c = "" then (.data false, [.errorBadChannel])
      else (.data true, [.switchToChannelById ls c])
  | .plugin _ id =>
    (.data true, [.showModal "PluginInternal" id location])

/-- Source `handleGotoLocation` (src lines 138-217). -/
def handleGotoLocation (env : Env) (intl : Intl) (serverUrl location : String) :
    GotoResult × List Effect :=
  match env.serverDatabases serverUrl with
  | none => (.error (serverUrl ++ " database not found"), [])
  | some operator =>
    let database := operator.database
    let m? := env.matchDeepLink location serverUrl
      ((env.getConfig database).map Config.SiteURL)
    match m?, resolveLinkServerUrl env m? with
    | some m, some ls =>
      if ls = "" then gotoFallback location
      else handleMatchedLink env intl serverUrl database location ls m
    | some _, none => gotoFallback location
    | none, _ => gotoFallback location

/-! Concrete collaborator environments used to exercise the theorems. -/

/-- A registry entry whose operator holds the database handle `"db"`. -/
def wOperator : ServerOperator := ⟨"db"⟩

/-- A baseline environment: registry populated, client available, no channel
row, apps disabled, no deep-link match. -/
def wEnvBase : Env where
  serverDatabases := fun _ => some wOperator
  searchUrl := fun u => some u
  getClient := fun _ => .ok "client"
  getChannelById := fun _ _ => none
  getCurrentTeamId := fun _ => "team"
  isAppsEnabled := fun _ => false
  isAppCommand := fun _ _ => false
  composeCommandSubmitCall := fun _ _ => .error "compose failed"
  doAppSubmit := fun _ _ _ => .error ⟨"error", none, none, none⟩
  clientExecuteCommand := fun _ _ _ => .ok ⟨none⟩
  hasIntegrationsManager := fun _ => false
  getConfig := fun _ => none
  matchDeepLink := fun _ _ _ => none
  queryUsersByUsername := fun _ _ => none
  getTeammateNameDisplay := fun _ => "full_name"
  displayUsername := fun u _ _ => u.username

/-- A fixed locale record. -/
def wIntl : Intl := ⟨"en"⟩

/-- Apps enabled and the message recognized as an app command; composition
fails, so the app pipeline answers without any backend call. -/
def c2Env : Env :=
  { wEnvBase with isAppsEnabled := fun _ => true, isAppCommand := fun _ _ => true }

/-- A deep-link matcher producing a DirectMessage link with no user name. -/
def c3Env : Env :=
  { wEnvBase with matchDeepLink := fun _ _ _ => some (.directMessage "s2" none) }

/-- An empty database registry. -/
def c4Env : Env :=
  { wEnvBase with serverDatabases := fun _ => none }

/-- An app pipeline whose submit call answers with the unrecognized response
tag `"weird"`. -/
def c5Env : Env :=
  { wEnvBase with
    isAppsEnabled := fun _ => true
    isAppCommand := fun _ _ => true
    composeCommandSubmitCall := fun _ _ => .ok ⟨"ctx"⟩
    doAppSubmit := fun _ _ _ => .ok ⟨"weird", none, none, none⟩ }

/-- A deep-link matcher producing a Channel link. -/
def c6Env : Env :=
  { wEnvBase with matchDeepLink := fun _ _ _ => some (.channel "s2" "chan" "teamname") }

/-- A channel row whose `teamId` is the empty string, next to a current team
id that differs from it. -/
def c7Env : Env :=
  { wEnvBase with
    getChannelById := fun _ _ => some ⟨""⟩
    getCurrentTeamId := fun _ => "currentTeam" }

/-- A deep-link matcher producing a DirectMessage link that targets a server
other than the one the call was made for, with the named user present. -/
def c10Env : Env :=
  { wEnvBase with
    matchDeepLink := fun _ _ _ => some (.directMessage "other" (some "alice"))
    queryUsersByUsername := fun _ _ => some ⟨"uid", "alice"⟩ }

/-! Helper lemmas about the JS string primitives. -/

theorem dropWhile_idem {α} (p : α → Bool) (l : List α) :
    (l.dropWhile p).dropWhile p = l.dropWhile p := by
  induction l with
  | nil => rfl
  | cons a t ih =>
    rw [List.dropWhile_cons]
    by_cases hp : p a
    · simpa [hp] using ih
    · simp [List.dropWhile_cons, hp]

theorem head?_dropWhile_eq_false {α} (p : α → Bool) :
    ∀ (l : List α) {c : α}, (l.dropWhile p).head? = some c → p c = false := by
  intro l
  induction l with
  | nil => intro c h; simp [List.dropWhile] at h
  | cons a t ih =>
    intro c h
    rw [List.dropWhile_cons] at h
    by_cases hp : p a
    · exact ih (by simpa [hp] using h)
    · simp only [Bool.not_eq_true] at hp
      rw [hp] at h
      simp only [Bool.false_eq_true, if_false, List.head?_cons, Option.some.injEq] at h
      subst h
      exact hp

theorem jsTrimEnd_idem (l : List Char) : jsTrimEnd (jsTrimEnd l) = jsTrimEnd l := by
  unfold jsTrimEnd
  rw [List.reverse_reverse, dropWhile_idem]

theorem jsTrimEnd_jsTrim (l : List Char) : jsTrimEnd (jsTrim l) = jsTrim l := by
  unfold jsTrim
  exact jsTrimEnd_idem _

theorem getLast?_jsTrimEnd {l : List Char} {c : Char}
    (h : (jsTrimEnd l).getLast? = some c) : jsIsWhitespace c = false := by
  unfold jsTrimEnd at h
  rw [List.getLast?_reverse] at h
  exact head?_dropWhile_eq_false _ _ h

theorem getLast?_jsTrim {l : List Char} {c : Char}
    (h : (jsTrim l).getLast? = some c) : jsIsWhitespace c = false := by
  unfold jsTrim at h
  exact getLast?_jsTrimEnd h

theorem mem_of_mem_jsTrimEnd {l : List Char} {c : Char} (h : c ∈ jsTrimEnd l) : c ∈ l := by
  unfold jsTrimEnd at h
  rw [List.mem_reverse] at h
  exact List.mem_reverse.mp ((List.dropWhile_sublist _).subset h)

theorem mem_of_mem_jsTrim {l : List Char} {c : Char} (h : c ∈ jsTrim l) : c ∈ l := by
  unfold jsTrim at h
  exact (List.dropWhile_sublist _).subset (mem_of_mem_jsTrimEnd h)

theorem emdash_not_mem_filterEmDash : ∀ l : List Char, '—' ∉ filterEmDashForCommand l := by
  intro l
  induction l with
  | nil => simp [filterEmDashForCommand]
  | cons a t ih =>
    intro hmem
    rcases List.mem_append.mp hmem with h1 | h2
    · by_cases ha : a = '—'
      · rw [if_pos ha] at h1
        exact absurd h1 (by decide)
      · rw [if_neg ha] at h1
        exact ha (List.mem_singleton.mp h1).symm
    · exact ih h2

theorem jsToLowerChar_emdash {c : Char} (h : jsToLowerChar c = '—') : c = '—' := by
  unfold jsToLowerChar at h
  split at h
  · exfalso
    rename_i hc
    obtain ⟨h1, h2⟩ := hc
    set n := c.toNat with hn
    interval_cases n <;> exact absurd h (by decide)
  · exact h

/-- C1 (amended): for every input the recomposed message is the lower-cased
command token, one separating space, and an argument segment whose trailing
whitespace is stripped — also when the command is `/code`. What `/code`
preserves (and other commands do not) is only the leading whitespace of the
argument segment: the `/code` branch applies `trimEnd`, every other branch
applies the full `trim`. -/
theorem normalizeCommand_trailing_trimmed (message : List Char) :
    (cmdOf message = "/code".data →
      normalizeCommand message = cmdOf message ++ [' '] ++ jsTrimEnd (restOf message)) ∧
    (cmdOf message ≠ "/code".data →
      normalizeCommand message = cmdOf message ++ [' '] ++ jsTrim (restOf message)) ∧
    (∀ c, (jsTrimEnd (restOf message)).getLast? = some c → jsIsWhitespace c = false) ∧
    (∀ c, (jsTrim (restOf message)).getLast? = some c → jsIsWhitespace c = false) := by
  refine ⟨fun h => ?_, fun h => ?_, fun c hc => getLast?_jsTrimEnd hc,
    fun c hc => getLast?_jsTrim hc⟩
  · unfold normalizeCommand
    rw [if_pos h]
  · unfold normalizeCommand
    rw [if_neg h]

/-- C1 (counterexample to the claim as stated): on the spec's own example
input `"/code arg  "` the recomposed message is `"/code  arg"` — the two
trailing spaces of the argument segment are stripped, the argument segment
of the input is not kept as a suffix, and the result ends in `'g'`. -/
theorem normalizeCommand_code_trailing_counterexample :
    normalizeCommand ("/code arg  ".data) = "/code  arg".data ∧
    (normalizeCommand ("/code arg  ".data)).getLast? = some 'g' ∧
    ¬ (" arg  ".data <:+ normalizeCommand ("/code arg  ".data)) := by
  decide

/-- Witness for `normalizeCommand_trailing_trimmed` at the concrete inputs
`"/code a "` and `"/away  b "`. -/
theorem normalizeCommand_trailing_trimmed_witness :
    normalizeCommand ("/code a ".data) = "/code  a".data ∧
    normalizeCommand ("/away  b ".data) = "/away b".data := by
  constructor
  · have h := (normalizeCommand_trailing_trimmed ("/code a ".data)).1 (by decide)
    rw [h]; decide
  · have h := (normalizeCommand_trailing_trimmed ("/away  b ".data)).2.1 (by decide)
    rw [h]; decide

/-- C8: the em-dash filter removes every em-dash, and the whole normalized
command produced by the non-app path of `executeCommand` contains no em-dash
character: splitting, lower-casing, trimming and recomposition never
reintroduce one. -/
theorem normalizeCommand_no_emdash (message : List Char) :
    '—' ∉ filterEmDashForCommand message ∧ '—' ∉ normalizeCommand message := by
  refine ⟨emdash_not_mem_filterEmDash message, fun hmem => ?_⟩
  have hcmd : '—' ∉ cmdOf message := by
    intro hc
    unfold cmdOf at hc
    obtain ⟨c, hcmem, hceq⟩ := List.mem_map.mp hc
    have hce : c = '—' := jsToLowerChar_emdash hceq
    subst hce
    exact emdash_not_mem_filterEmDash message (List.take_subset _ _ hcmem)
  have hrest : '—' ∉ restOf message := by
    intro hr
    unfold restOf at hr
    exact emdash_not_mem_filterEmDash message (List.drop_subset _ _ hr)
  unfold normalizeCommand at hmem
  split at hmem <;>
    rcases List.mem_append.mp hmem with h1 | h2
  · rcases List.mem_append.mp h1 with h3 | h4
    · exact hcmd h3
    · exact absurd h4 (by decide)
  · exact hrest (mem_of_mem_jsTrimEnd h2)
  · rcases List.mem_append.mp h1 with h3 | h4
    · exact hcmd h3
    · exact absurd h4 (by decide)
  · exact hrest (mem_of_mem_jsTrim h2)

/-- Witness for `normalizeCommand_no_emdash` at a concrete input containing
an em-dash. -/
theorem normalizeCommand_no_emdash_witness :
    '—' ∉ filterEmDashForCommand ("/x —flag".data) ∧
    '—' ∉ normalizeCommand ("/x —flag".data) :=
  normalizeCommand_no_emdash ("/x —flag".data)

/-! Reduction lemmas for `executeCommand`. -/

theorem executeCommand_app_path (env : Env) (intl : Intl) (serverUrl : String)
    (message : List Char) (channelId : String) (rootId : Option String)
    (op : ServerOperator) (client : Client)
    (hop : env.serverDatabases serverUrl = some op)
    (hcl : env.getClient serverUrl = .ok client)
    (happ : (env.isAppsEnabled serverUrl &&
      env.isAppCommand ⟨serverUrl, channelId, commandTeamId env op channelId, rootId⟩
        message) = true) :
    executeCommand env intl serverUrl message channelId rootId =
      executeAppCommand env intl serverUrl
        ⟨serverUrl, channelId, commandTeamId env op channelId, rootId⟩ message
        ⟨channelId, commandTeamId env op channelId, rootId, rootId⟩ := by
  unfold executeCommand
  simp only [hop, hcl, happ, if_true]

theorem executeCommand_backend_path (env : Env) (intl : Intl) (serverUrl : String)
    (message : List Char) (channelId : String) (rootId : Option String)
    (op : ServerOperator) (client : Client)
    (hop : env.serverDatabases serverUrl = some op)
    (hcl : env.getClient serverUrl = .ok client)
    (happ : (env.isAppsEnabled serverUrl &&
      env.isAppCommand ⟨serverUrl, channelId, commandTeamId env op channelId, rootId⟩
        message) = false) :
    executeCommand env intl serverUrl message channelId rootId =
      (match env.clientExecuteCommand client (normalizeCommand message)
          ⟨channelId, commandTeamId env op channelId, rootId, rootId⟩ with
       | .error e => (.error (.clientError e),
          [.clientExecuteCommand (normalizeCommand message)
            ⟨channelId, commandTeamId env op channelId, rootId, rootId⟩])
       | .ok data =>
         match data.trigger_id with
         | some t =>
           if t ≠ "" then
             if env.hasIntegrationsManager serverUrl then
               (.data data, [.clientExecuteCommand (normalizeCommand message)
                  ⟨channelId, commandTeamId env op channelId, rootId, rootId⟩, .setTriggerId t])
             else (.data data, [.clientExecuteCommand (normalizeCommand message)
                  ⟨channelId, commandTeamId env op channelId, rootId, rootId⟩])
           else (.data data, [.clientExecuteCommand (normalizeCommand message)
                  ⟨channelId, commandTeamId env op channelId, rootId, rootId⟩])
         | none => (.data data, [.clientExecuteCommand (normalizeCommand message)
                  ⟨channelId, commandTeamId env op channelId, rootId, rootId⟩])) := by
  unfold executeCommand
  simp only [hop, hcl, happ, Bool.false_eq_true, if_false]

theorem executeAppCommand_no_backend_call (env : Env) (intl : Intl) (serverUrl : String)
    (pctx : ParserCtx) (msg : List Char) (args : CommandArgs) :
    ∀ m a, Effect.clientExecuteCommand m a ∉
      (executeAppCommand env intl serverUrl pctx msg args).2 := by
  intro m a
  unfold executeAppCommand
  repeat' split
  all_goals simp

/-- C2: classifier exclusivity. When the registry and client checks pass,
if the app subsystem is enabled and the message is recognized as an app
command, `executeCommand` returns exactly the app pipeline's result and the
backend executor is never called; otherwise the app submit pipeline is never
invoked. -/
theorem executeCommand_classifier_exclusive (env : Env) (intl : Intl) (serverUrl : String)
    (message : List Char) (channelId : String) (rootId : Option String)
    (op : ServerOperator) (client : Client)
    (hop : env.serverDatabases serverUrl = some op)
    (hcl : env.getClient serverUrl = .ok client) :
    ((env.isAppsEnabled serverUrl &&
        env.isAppCommand ⟨serverUrl, channelId, commandTeamId env op channelId, rootId⟩
          message) = true →
      executeCommand env intl serverUrl message channelId rootId =
        executeAppCommand env intl serverUrl
          ⟨serverUrl, channelId, commandTeamId env op channelId, rootId⟩ message
          ⟨channelId, commandTeamId env op channelId, rootId, rootId⟩ ∧
      ∀ m a, Effect.clientExecuteCommand m a ∉
        (executeCommand env intl serverUrl message channelId rootId).2) ∧
    ((env.isAppsEnabled serverUrl &&
        env.isAppCommand ⟨serverUrl, channelId, commandTeamId env op channelId, rootId⟩
          message) = false →
      ∀ c, Effect.appSubmit c ∉
        (executeCommand env intl serverUrl message channelId rootId).2) := by
  constructor
  · intro happ
    have hred := executeCommand_app_path env intl serverUrl message channelId rootId
      op client hop hcl happ
    refine ⟨hred, fun m a => ?_⟩
    rw [hred]
    exact executeAppCommand_no_backend_call env intl serverUrl _ message _ m a
  · intro happ
    have hred := executeCommand_backend_path env intl serverUrl message channelId rootId
      op client hop hcl happ
    rw [hred]
    intro c
    repeat' split
    all_goals simp

/-- Witness for `executeCommand_classifier_exclusive`: with apps enabled and
the recognizer accepting, the result is the app pipeline's result. -/
theorem executeCommand_classifier_exclusive_witness :
    executeCommand c2Env wIntl "server" ("/app x".data) "chan" none =
      executeAppCommand c2Env wIntl "server" ⟨"server", "chan", "team", none⟩
        ("/app x".data) ⟨"chan", "team", none, none⟩ :=
  ((executeCommand_classifier_exclusive c2Env wIntl "server" ("/app x".data) "chan" none
    wOperator "client" rfl rfl).1 (by decide)).1

/-- C7 (amended): on the backend path the command context's `team_id` is the
channel's team id only when the channel row exists and its team id is
non-empty; when the channel is absent, and also when the channel exists with
an empty team id (the JS `||` treats `''` as absent), it is the current team
id of the database. -/
theorem executeCommand_team_id_fallback (env : Env) (intl : Intl) (serverUrl : String)
    (message : List Char) (channelId : String) (rootId : Option String)
    (op : ServerOperator) (client : Client)
    (hop : env.serverDatabases serverUrl = some op)
    (hcl : env.getClient serverUrl = .ok client)
    (happ : (env.isAppsEnabled serverUrl &&
      env.isAppCommand ⟨serverUrl, channelId, commandTeamId env op channelId, rootId⟩
        message) = false) :
    ∀ m a, Effect.clientExecuteCommand m a ∈
        (executeCommand env intl serverUrl message channelId rootId).2 →
      a.team_id =
        match env.getChannelById op.database channelId with
        | some channel =>
          if channel.teamId = "" then env.getCurrentTeamId op.database else channel.teamId
        | none => env.getCurrentTeamId op.database := by
  have hred := executeCommand_backend_path env intl serverUrl message channelId rootId
    op client hop hcl happ
  rw [hred]
  intro m a hmem
  repeat' split at hmem
  all_goals simp at hmem
  all_goals (obtain ⟨-, ha⟩ := hmem; subst ha; rfl)

/-- C7 (counterexample to the claim as stated): a channel row found by the
lookup whose `teamId` is the empty string — as for a direct-message
channel — does not supply the command context's team id: the context carries
the current team id instead, although the channel lookup succeeded. -/
theorem executeCommand_team_id_counterexample :
    c7Env.getChannelById wOperator.database "chan" = some ⟨""⟩ ∧
    (executeCommand c7Env wIntl "server" ("/away hi".data) "chan" none).2 =
      [Effect.clientExecuteCommand ("/away hi".data) ⟨"chan", "currentTeam", none, none⟩] ∧
    ("" : String) ≠ "currentTeam" := by
  decide

/-- Witness for `executeCommand_team_id_fallback` at the environment whose
channel row has an empty team id. -/
theorem executeCommand_team_id_witness :
    (⟨"chan", "currentTeam", none, none⟩ : CommandArgs).team_id = "currentTeam" :=
  executeCommand_team_id_fallback c7Env wIntl "server" ("/away hi".data) "chan" none
    wOperator "client" rfl rfl (by decide) ("/away hi".data)
    ⟨"chan", "currentTeam", none, none⟩ (by decide)

/-- C4: when the database registry holds no entry for the server URL, both
`executeCommand` and `handleGotoLocation` return an `{error}` whose message
string contains the server URL (it is its prefix), with an empty effect
trace: no network call — indeed no collaborator call at all — is
attempted. -/
theorem missing_database_fails_fast (env : Env) (intl : Intl) (serverUrl : String)
    (message : List Char) (channelId : String) (rootId : Option String) (location : String)
    (hop : env.serverDatabases serverUrl = none) :
    executeCommand env intl serverUrl message channelId rootId =
      (.error (.str (serverUrl ++ " database not found")), []) ∧
    handleGotoLocation env intl serverUrl location =
      (.error (serverUrl ++ " database not found"), []) ∧
    serverUrl.data <:+: (serverUrl ++ " database not found").data := by
  refine ⟨?_, ?_, ⟨[], " database not found".data, by simp⟩⟩
  · unfold executeCommand
    simp only [hop]
  · unfold handleGotoLocation
    simp only [hop]

/-- Witness for `missing_database_fails_fast` on an empty registry. -/
theorem missing_database_fails_fast_witness :
    executeCommand c4Env wIntl "srv" ("/away".data) "chan" none =
      (.error (.str ("srv" ++ " database not found")), []) ∧
    handleGotoLocation c4Env wIntl "srv" "link" =
      (.error ("srv" ++ " database not found"), []) :=
  ⟨(missing_database_fails_fast c4Env wIntl "srv" ("/away".data) "chan" none "link" rfl).1,
   (missing_database_fails_fast c4Env wIntl "srv" ("/away".data) "chan" none "link" rfl).2.1⟩

/-- C5: an app call response carrying a tag other than OK, FORM or NAVIGATE
makes `executeAppCommand` answer with an `{error}` whose message contains the
tag value; and on every input `executeAppCommand` answers with a `{data}` or
`{error}` object — it never throws, every branch resolving to one of the two
shapes. -/
theorem executeAppCommand_unknown_type (env : Env) (intl : Intl) (serverUrl : String)
    (pctx : ParserCtx) (msg : List Char) (args : CommandArgs)
    (creq : AppCallRequest) (callResp : AppCallResponse)
    (hcomp : env.composeCommandSubmitCall pctx msg = .ok creq)
    (hsub : env.doAppSubmit serverUrl creq intl = .ok callResp)
    (hok : callResp.type ≠ AppCallResponseTypes.OK)
    (hform : callResp.type ≠ AppCallResponseTypes.FORM)
    (hnav : callResp.type ≠ AppCallResponseTypes.NAVIGATE) :
    (executeAppCommand env intl serverUrl pctx msg args).1 =
      .error (.message (unknownTypeError callResp.type)) ∧
    (∃ pre post, unknownTypeError callResp.type = pre ++ callResp.type ++ post) ∧
    ∀ (env2 : Env) (intl2 : Intl) (s2 : String) (p2 : ParserCtx) (m2 : List Char)
      (a2 : CommandArgs),
      (∃ r, (executeAppCommand env2 intl2 s2 p2 m2 a2).1 = .data r) ∨
      (∃ e, (executeAppCommand env2 intl2 s2 p2 m2 a2).1 = .error e) := by
  refine ⟨?_, ⟨"App response type not supported. Response type: ", ".", rfl⟩, ?_⟩
  · unfold executeAppCommand
    simp only [hcomp, hsub]
    rw [if_neg hok, if_neg hform, if_neg hnav]
  · intro env2 intl2 s2 p2 m2 a2
    unfold executeAppCommand
    repeat' split
    all_goals first
      | exact Or.inl ⟨_, rfl⟩
      | exact Or.inr ⟨_, rfl⟩

/-- Witness for `executeAppCommand_unknown_type` at the response tag
`"weird"`. -/
theorem executeAppCommand_unknown_type_witness :
    (executeAppCommand c5Env wIntl "server" ⟨"server", "chan", "team", none⟩ ("/app x".data)
      ⟨"chan", "team", none, none⟩).1 =
      .error (.message (unknownTypeError "weird")) :=
  (executeAppCommand_unknown_type c5Env wIntl "server" ⟨"server", "chan", "team", none⟩
    ("/app x".data) ⟨"chan", "team", none, none⟩ ⟨"ctx"⟩ ⟨"weird", none, none, none⟩
    rfl rfl (by decide) (by decide) (by decide)).1

/-! Reduction lemmas for `handleGotoLocation`. -/

theorem handleGotoLocation_matched_path (env : Env) (intl : Intl) (serverUrl location : String)
    (op : ServerOperator) (m : DeepLinkMatch) (ls : String)
    (hop : env.serverDatabases serverUrl = some op)
    (hm : env.matchDeepLink location serverUrl
      ((env.getConfig op.database).map Config.SiteURL) = some m)
    (hls : resolveLinkServerUrl env (some m) = some ls)
    (hne : ls ≠ "") :
    handleGotoLocation env intl serverUrl location =
      handleMatchedLink env intl serverUrl op.database location ls m := by
  unfold handleGotoLocation
  simp only [hop, hm, hls]
  rw [if_neg hne]

theorem handleMatchedLink_soft_result (env : Env) (intl : Intl)
    (serverUrl database location ls : String) (m : DeepLinkMatch) :
    (∃ b, (handleMatchedLink env intl serverUrl database location ls m).1 =
      GotoResult.data b) ∧
    (∀ db u, Effect.queryUsers db u ∈
        (handleMatchedLink env intl serverUrl database location ls m).2 →
      db = database) := by
  cases m with
  | channel ds cn tn => exact ⟨⟨true, rfl⟩, by intro db u h; simp [handleMatchedLink] at h⟩
  | permalink ds tn pid => exact ⟨⟨true, rfl⟩, by intro db u h; simp [handleMatchedLink] at h⟩
  | plugin ds pid => exact ⟨⟨true, rfl⟩, by intro db u h; simp [handleMatchedLink] at h⟩
  | groupMessage ds ci =>
    rcases ci with _ | c
    · exact ⟨⟨false, rfl⟩, by intro db u h; simp [handleMatchedLink] at h⟩
    · by_cases hc : c = ""
      · refine ⟨⟨false, ?_⟩, ?_⟩
        · simp [handleMatchedLink, hc]
        · intro db u h; simp [handleMatchedLink, hc] at h
      · refine ⟨⟨true, ?_⟩, ?_⟩
        · simp [handleMatchedLink, hc]
        · intro db u h; simp [handleMatchedLink, hc] at h
  | directMessage ds un =>
    rcases un with _ | u
    · exact ⟨⟨false, rfl⟩, by intro db u h; simp [handleMatchedLink] at h⟩
    · by_cases hu : u = ""
      · refine ⟨⟨false, ?_⟩, ?_⟩
        · simp [handleMatchedLink, hu]
        · intro db v h; simp [handleMatchedLink, hu] at h
      · rcases hq : env.queryUsersByUsername database u with _ | user
        · refine ⟨⟨false, ?_⟩, ?_⟩
          · simp [handleMatchedLink, hu, jsObjectFalsy, hq]
          · intro db v h
            simp [handleMatchedLink, hu, jsObjectFalsy, hq] at h
            exact h.1
        · refine ⟨⟨true, ?_⟩, ?_⟩
          · simp [handleMatchedLink, hu, jsObjectFalsy, hq]
          · intro db v h
            simp [handleMatchedLink, hu, jsObjectFalsy, hq] at h
            exact h.1

/-- C3: a matched DirectMessage deep link whose payload lacks a user name
(absent or empty), a matched DirectMessage link whose named user is not
found in the database, and a matched GroupMessage link whose payload lacks a
channel id, each make `handleGotoLocation` return `{data: false}` — a soft
failure, not an `{error}` value. -/
theorem handleGotoLocation_invalid_payload (env : Env) (intl : Intl)
    (serverUrl location : String) (op : ServerOperator) (m : DeepLinkMatch) (ls : String)
    (hop : env.serverDatabases serverUrl = some op)
    (hm : env.matchDeepLink location serverUrl
      ((env.getConfig op.database).map Config.SiteURL) = some m)
    (hls : resolveLinkServerUrl env (some m) = some ls)
    (hne : ls ≠ "") :
    (∀ ds, m = .directMessage ds none →
      handleGotoLocation env intl serverUrl location = (.data false, [.errorUnkownUser])) ∧
    (∀ ds, m = .directMessage ds (some "") →
      handleGotoLocation env intl serverUrl location = (.data false, [.errorUnkownUser])) ∧
    (∀ ds u, m = .directMessage ds (some u) → u ≠ "" →
      env.queryUsersByUsername op.database u = none →
      handleGotoLocation env intl serverUrl location =
        (.data false, [.queryUsers op.database u, .errorUnkownUser])) ∧
    (∀ ds, m = .groupMessage ds none →
      handleGotoLocation env intl serverUrl location = (.data false, [.errorBadChannel])) ∧
    (∀ ds, m = .groupMessage ds (some "") →
      handleGotoLocation env intl serverUrl location = (.data false, [.errorBadChannel])) := by
  have hred := handleGotoLocation_matched_path env intl serverUrl location op m ls hop hm hls hne
  refine ⟨?_, ?_, ?_, ?_, ?_⟩
  · intro ds hdm; subst hdm; rw [hred]; rfl
  · intro ds hdm; subst hdm; rw [hred]; simp [handleMatchedLink]
  · intro ds u hdm hu hq; subst hdm; rw [hred]
    simp [handleMatchedLink, hu, jsObjectFalsy, hq]
  · intro ds hgm; subst hgm; rw [hred]; rfl
  · intro ds hgm; subst hgm; rw [hred]; simp [handleMatchedLink]

/-- Witness for `handleGotoLocation_invalid_payload` at a DirectMessage link
with no user name. -/
theorem handleGotoLocation_invalid_payload_witness :
    handleGotoLocation c3Env wIntl "server" "link" = (.data false, [.errorUnkownUser]) :=
  (handleGotoLocation_invalid_payload c3Env wIntl "server" "link" wOperator
    (.directMessage "s2" none) "s2" rfl rfl (by decide) (by decide)).1 "s2" rfl

/-- C6: every matched Channel, Permalink or Plugin deep link with a locally
resolvable target server — and every DirectMessage or GroupMessage link that
passes its payload checks — makes `handleGotoLocation` dispatch the
corresponding navigation action and return `{data: true}`; the navigation
call is fire-and-forget, its outcome never examined (no effect's return
value feeds the result). -/
theorem handleGotoLocation_dispatch_true (env : Env) (intl : Intl)
    (serverUrl location : String) (op : ServerOperator) (m : DeepLinkMatch) (ls : String)
    (hop : env.serverDatabases serverUrl = some op)
    (hm : env.matchDeepLink location serverUrl
      ((env.getConfig op.database).map Config.SiteURL) = some m)
    (hls : resolveLinkServerUrl env (some m) = some ls)
    (hne : ls ≠ "") :
    (∀ ds cn tn, m = .channel ds cn tn →
      handleGotoLocation env intl serverUrl location =
        (.data true, [.switchToChannelByName ls cn tn])) ∧
    (∀ ds tn pid, m = .permalink ds tn pid →
      handleGotoLocation env intl serverUrl location =
        (.data true, [.showPermalink ls tn pid])) ∧
    (∀ ds pid, m = .plugin ds pid →
      handleGotoLocation env intl serverUrl location =
        (.data true, [.showModal "PluginInternal" pid location])) ∧
    (∀ ds u user, m = .directMessage ds (some u) → u ≠ "" →
      env.queryUsersByUsername op.database u = some user →
      handleGotoLocation env intl serverUrl location =
        (.data true, [.queryUsers op.database u,
          .makeDirectChannel ls user.id
            (env.displayUsername user intl.locale (env.getTeammateNameDisplay op.database))
            true])) ∧
    (∀ ds c, m = .groupMessage ds (some c) → c ≠ "" →
      handleGotoLocation env intl serverUrl location =
        (.data true, [.switchToChannelById ls c])) := by
  have hred := handleGotoLocation_matched_path env intl serverUrl location op m ls hop hm hls hne
  refine ⟨?_, ?_, ?_, ?_, ?_⟩
  · intro ds cn tn hk; subst hk; rw [hred]; rfl
  · intro ds tn pid hk; subst hk; rw [hred]; rfl
  · intro ds pid hk; subst hk; rw [hred]; rfl
  · intro ds u user hk hu hq; subst hk; rw [hred]
    simp [handleMatchedLink, hu, jsObjectFalsy, hq]
  · intro ds c hk hc; subst hk; rw [hred]
    simp [handleMatchedLink, hc]

/-- Witness for `handleGotoLocation_dispatch_true` at a Channel link. -/
theorem handleGotoLocation_dispatch_true_witness :
    handleGotoLocation c6Env wIntl "server" "link" =
      (.data true, [.switchToChannelByName "s2" "chan" "teamname"]) :=
  (handleGotoLocation_dispatch_true c6Env wIntl "server" "link" wOperator
    (.channel "s2" "chan" "teamname") "s2" rfl rfl (by decide) (by decide)).1
    "s2" "chan" "teamname" rfl

/-- C9: when the link does not match any known pattern, or its matched
target server does not resolve to a locally known server, `handleGotoLocation`
calls the external URL opener exactly once and returns `{data: true}` — by
return value indistinguishable from a successfully dispatched matched
link. -/
theorem handleGotoLocation_fallback (env : Env) (intl : Intl) (serverUrl location : String)
    (op : ServerOperator)
    (hop : env.serverDatabases serverUrl = some op)
    (hfb : jsTruthyStr (resolveLinkServerUrl env (env.matchDeepLink location serverUrl
      ((env.getConfig op.database).map Config.SiteURL))) = false) :
    handleGotoLocation env intl serverUrl location =
      (.data true, [.tryOpenURL location]) := by
  unfold handleGotoLocation
  simp only [hop]
  rcases hm : env.matchDeepLink location serverUrl
      ((env.getConfig op.database).map Config.SiteURL) with _ | m
  · rfl
  · rw [hm] at hfb
    rcases hr : resolveLinkServerUrl env (some m) with _ | ls
    · rfl
    · rw [hr] at hfb
      have hls : ls = "" := by simpa [jsTruthyStr] using hfb
      subst hls
      simp [gotoFallback]

/-- Witness for `handleGotoLocation_fallback` at an unmatched link. -/
theorem handleGotoLocation_fallback_witness :
    handleGotoLocation wEnvBase wIntl "server" "badlink" =
      (.data true, [.tryOpenURL "badlink"]) :=
  handleGotoLocation_fallback wEnvBase wIntl "server" "badlink" wOperator rfl (by decide)

/-- C10: whenever the registry check at entry passes, `handleGotoLocation`
never returns the `"database not found"` error of the DirectMessage branch —
it always resolves to a `{data}` value — because `database` is the
non-optional field of the operator already verified non-null at entry, so
the inner `!database` test cannot fire; and every user lookup the
DirectMessage branch performs uses the originally supplied server's
database, even when the link targets a different server. -/
theorem handleGotoLocation_dm_origin_database (env : Env) (intl : Intl)
    (serverUrl location : String) (op : ServerOperator)
    (hop : env.serverDatabases serverUrl = some op) :
    (∃ b, (handleGotoLocation env intl serverUrl location).1 = GotoResult.data b) ∧
    (∀ db u, Effect.queryUsers db u ∈ (handleGotoLocation env intl serverUrl location).2 →
      db = op.database) := by
  unfold handleGotoLocation
  simp only [hop]
  rcases hm : env.matchDeepLink location serverUrl
      ((env.getConfig op.database).map Config.SiteURL) with _ | m
  · exact ⟨⟨true, rfl⟩, by intro db u h; simp [gotoFallback] at h⟩
  · rcases hr : resolveLinkServerUrl env (some m) with _ | ls
    · exact ⟨⟨true, rfl⟩, by intro db u h; simp [gotoFallback] at h⟩
    · dsimp only
      by_cases hls : ls = ""
      · subst hls
        rw [if_pos rfl]
        exact ⟨⟨true, rfl⟩, by intro db u h; simp [gotoFallback] at h⟩
      · rw [if_neg hls]
        exact handleMatchedLink_soft_result env intl serverUrl op.database location ls m

/-- Witness for `handleGotoLocation_dm_origin_database` at a DirectMessage
link targeting a different server: the recorded lookup still uses the
original server's database handle. -/
theorem handleGotoLocation_dm_origin_database_witness :
    ("db" : String) = wOperator.database :=
  (handleGotoLocation_dm_origin_database c10Env wIntl "server" "link" wOperator rfl).2
    "db" "alice" (by decide)

end Command
